import Mathlib

/-
  Verification of the PythonRayTracing repository against its specification.

  Shallow embedding notes:
  * Python floats are modelled as real numbers; `float('inf')` (used as the
    initial `closest_t` and as the renderer's `t_max`) is modelled by `Option ℝ`
    for the running minimum and by `WithTop ℝ` for `t_max`.
  * Python exceptions raised inside the tracing path (ZeroDivisionError from
    `(-b - sqrt_disc) / (2 * a)` with `a = 0`) are modelled with `Except Unit`.
  * `round` is Python 3's round-half-to-even; `int` truncates toward zero.
  * The `Torus` shape is not modelled: its `intersect` delegates to the
    numerical root finder `np.roots`, which has no exact counterpart; no claim
    requires a concrete torus, and the tracer is stated over arbitrary scene
    objects (records of an `intersect` and a `normal_at` function, mirroring
    Python's duck-typed dispatch), so tori are covered abstractly.
-/

noncomputable section

/-- Modelled from the spec: the 3-D `Vector` class imported by `RayTracing.py`
and `SceneObjects.py` is not present under `src/` (`VectorUtilities.py` only
provides the same operations as free functions over lists of numbers, and a
mere type alias named `Vector`).  The class is modelled from spec section 3
("Vector3: `(x, y, z)` float triple, immutable value type") with operation
semantics taken from the free functions of `src/VectorUtilities.py`; in
particular `normalize` keeps the zero-vector guard of
`VectorUtilities.normalize`. -/
structure Vec3 where
  x : ℝ
  y : ℝ
  z : ℝ

instance : Add Vec3 := ⟨fun a b => ⟨a.x + b.x, a.y + b.y, a.z + b.z⟩⟩

instance : Sub Vec3 := ⟨fun a b => ⟨a.x - b.x, a.y - b.y, a.z - b.z⟩⟩

instance : Neg Vec3 := ⟨fun a => ⟨-a.x, -a.y, -a.z⟩⟩

instance : SMul ℝ Vec3 := ⟨fun s a => ⟨s * a.x, s * a.y, s * a.z⟩⟩

/-- Dot product, as in `VectorUtilities.dot` (sum of componentwise products). -/
def Vec3.dot (a b : Vec3) : ℝ := a.x * b.x + a.y * b.y + a.z * b.z

/-- Cross product of two 3-D vectors (spec section 4.1 lists `cross`). -/
def Vec3.cross (a b : Vec3) : Vec3 :=
  ⟨a.y * b.z - a.z * b.y, a.z * b.x - a.x * b.z, a.x * b.y - a.y * b.x⟩

/-- Euclidean length, as in `VectorUtilities.length`: `sqrt (dot v v)`. -/
def Vec3.length (a : Vec3) : ℝ := Real.sqrt (a.dot a)

/-- `normalize`, with the zero-vector guard of `VectorUtilities.normalize`:
a zero-length vector is returned unchanged, otherwise each component is
divided by the length. -/
def Vec3.normalize (a : Vec3) : Vec3 :=
  if a.length = 0 then a else ⟨a.x / a.length, a.y / a.length, a.z / a.length⟩

namespace VectorUtilities

/- The list-based vector functions of `src/VectorUtilities.py`.  The
`_validate_vector` type checks are satisfied statically by the type `List ℝ`. -/

/-- `VectorUtilities.dot`: `sum(x * y for x, y in zip(a, b))`. -/
def dot (a b : List ℝ) : ℝ := (List.zipWith (fun x y => x * y) a b).sum

/-- `VectorUtilities.length`: `math.sqrt(dot(v, v))`. -/
def length (v : List ℝ) : ℝ := Real.sqrt (dot v v)

/-- `VectorUtilities.normalize`: if the length is `0` the original vector is
returned (source comment: "Return original zero vector"), otherwise every
component is divided by the length. -/
def normalize (v : List ℝ) : List ℝ :=
  if length v = 0 then v else v.map (fun x => x / length v)

end VectorUtilities

/-- An RGB colour: Python represents colours as triples of integers. -/
abbrev Color := ℤ × ℤ × ℤ

/-- Python 3 `round` with no digits argument: round half to even. -/
def pyRound (x : ℝ) : ℤ :=
  if Int.fract x = 1 / 2 then (if Even ⌊x⌋ then ⌊x⌋ else ⌊x⌋ + 1) else round x

/-- Python `int(...)` on a float: truncation toward zero. -/
def pyInt (x : ℝ) : ℤ := if 0 ≤ x then ⌊x⌋ else ⌈x⌉

/-- `ColorUtilities.scale_rgb`: each channel is multiplied by the scalar,
rounded (`round`, half-to-even), and clamped to `[0, 255]` via
`min(255, max(0, ...))`. -/
def scale_rgb (color : Color) (scalar : ℝ) : Color :=
  (min 255 (max 0 (pyRound ((color.1 : ℝ) * scalar))),
   min 255 (max 0 (pyRound ((color.2.1 : ℝ) * scalar))),
   min 255 (max 0 (pyRound ((color.2.2 : ℝ) * scalar))))

/-- Hexadecimal digits of a natural number, as produced by Python's `%x`. -/
def hexStr (n : ℕ) : String := String.mk (Nat.toDigits 16 n)

/-- Python `"%02x" % n`: zero-padded to width 2 (a sign counts toward the
width, so negative values are not padded further). -/
def pyHex02 (n : ℤ) : String :=
  if 0 ≤ n then
    (if (hexStr n.toNat).length < 2 then "0" ++ hexStr n.toNat else hexStr n.toNat)
  else "-" ++ hexStr (-n).toNat

/-- `ColorUtilities.rgb_to_hex`: `"#%02x%02x%02x" % color`. -/
def rgb_to_hex (color : Color) : String :=
  "#" ++ pyHex02 color.1 ++ pyHex02 color.2.1 ++ pyHex02 color.2.2

/-- The three light variants of `src/SceneObjects.py` (`AmbientLight`,
`PointLight`, `DirectionalLight`); `ComputeLighting` dispatches on the
stored `type` string, which is fixed by each subclass constructor. -/
inductive Light where
  | ambient (intensity : ℝ)
  | point (intensity : ℝ) (position : Vec3)
  | directional (intensity : ℝ) (direction : Vec3)

/-- The `intensity` attribute stored by `Light.__init__`. -/
def Light.intensity : Light → ℝ
  | .ambient i => i
  | .point i _ => i
  | .directional i _ => i

/-- `AmbientLight(intensity)`: `Light.__init__` raises `ValueError` unless
`0.0 <= intensity <= 1.0`, then stores the intensity. -/
def mkAmbientLight (intensity : ℝ) : Except Unit Light :=
  if 0 ≤ intensity ∧ intensity ≤ 1 then .ok (.ambient intensity) else .error ()

/-- `PointLight(intensity, position)`: the `Light.__init__` intensity check
runs first; the position arity/type check is satisfied statically here. -/
def mkPointLight (intensity : ℝ) (position : Vec3) : Except Unit Light :=
  if 0 ≤ intensity ∧ intensity ≤ 1 then .ok (.point intensity position) else .error ()

/-- `DirectionalLight(intensity, direction)`: the `Light.__init__` intensity
check runs first; the direction arity/type check is satisfied statically. -/
def mkDirectionalLight (intensity : ℝ) (direction : Vec3) : Except Unit Light :=
  if 0 ≤ intensity ∧ intensity ≤ 1 then .ok (.directional intensity direction) else .error ()

/-- The duck-typed interface `trace_ray` relies on: every scene object carries
`color`, `specular`, `reflective` and the two methods `intersect` /
`normal_at` (base class `SceneObject` of `src/SceneObjects.py`).  `intersect`
may raise (modelled by `Except Unit`) and otherwise returns `None` or a tuple
of parametric distances. -/
structure SceneObject where
  color : Color
  specular : ℤ
  reflective : ℝ
  intersect : Vec3 → Vec3 → Except Unit (Option (List ℝ))
  normal_at : Vec3 → Vec3

/-- A `Scene` (`src/SceneObjects.py`): an object list and a light list. -/
structure Scene where
  objects : List SceneObject
  lights : List Light

/-- Stored attributes of a `Sphere` (its `__init__` stores `center`, `radius`,
and the base-class attributes; the base class normalizes `axis`). -/
structure Sphere where
  center : Vec3
  radius : ℝ
  color : Color
  specular : ℤ
  axis : Vec3
  reflective : ℝ

/-- `Sphere(center, radius, color, specular, axis, reflective)`. -/
def mkSphere (center : Vec3) (radius : ℝ) (color : Color) (specular : ℤ)
    (axis : Vec3) (reflective : ℝ) : Sphere :=
  ⟨center, radius, color, specular, axis.normalize, reflective⟩

/-- `Sphere.intersect`: quadratic coefficients `a = D·D`, `b = 2 D·CO`,
`c = CO·CO - r²`; a negative discriminant returns `None`; otherwise the two
roots `(-b ± sqrt disc) / (2a)` are computed — in Python the division raises
`ZeroDivisionError` when `a = 0`, which is modelled by the `.error` case. -/
def Sphere.intersect (s : Sphere) (O D : Vec3) : Except Unit (Option (List ℝ)) :=
  let CO := O - s.center
  let a := D.dot D
  let b := 2 * D.dot CO
  let c := CO.dot CO - s.radius ^ 2
  let disc := b * b - 4 * a * c
  if disc < 0 then .ok none
  else if a = 0 then .error ()
  else
    let sq := Real.sqrt disc
    .ok (some [(-b + sq) / (2 * a), (-b - sq) / (2 * a)])

/-- `Sphere.normal_at`: `(P - center).normalize()`. -/
def Sphere.normal_at (s : Sphere) (P : Vec3) : Vec3 := (P - s.center).normalize

/-- The `SceneObject` view of a sphere. -/
def Sphere.obj (s : Sphere) : SceneObject :=
  ⟨s.color, s.specular, s.reflective, s.intersect, s.normal_at⟩

/-- Stored attributes of a `Cylinder`. -/
structure Cylinder where
  base_center : Vec3
  axis : Vec3
  radius : ℝ
  height : ℝ
  color : Color
  specular : ℤ
  reflective : ℝ

/-- `Cylinder(base_center, axis, radius, height, color, specular, reflective)`;
the base class stores `axis.normalize()`. -/
def mkCylinder (base_center : Vec3) (axis : Vec3) (radius height : ℝ)
    (color : Color) (specular : ℤ) (reflective : ℝ) : Cylinder :=
  ⟨base_center, axis.normalize, radius, height, color, specular, reflective⟩

/-- Stable insertion sort, the semantics of Python's `sorted` on reals. -/
def pyInsert (t : ℝ) : List ℝ → List ℝ
  | [] => [t]
  | u :: us => if t ≤ u then t :: u :: us else u :: pyInsert t us

/-- Python `sorted`: ascending stable sort. -/
def pySorted : List ℝ → List ℝ
  | [] => []
  | t :: ts => pyInsert t (pySorted ts)

/-- `Cylinder.intersect`: lateral quadratic in the plane perpendicular to the
axis, roots kept when the axial height lies in `[0, height]`; the two caps are
tested by a guarded plane intersection; the union is sorted.  When the lateral
discriminant is non-negative and `a = 0` (ray parallel to the axis), the
Python division `(-b - sqrt_disc) / (2*a)` raises `ZeroDivisionError`,
modelled by the `.error` case. -/
def Cylinder.intersect (cyl : Cylinder) (O D : Vec3) : Except Unit (Option (List ℝ)) :=
  let axis := cyl.axis
  let CO := O - cyl.base_center
  let Dproj := D - (D.dot axis) • axis
  let COproj := CO - (CO.dot axis) • axis
  let a := Dproj.dot Dproj
  let b := 2 * Dproj.dot COproj
  let c := COproj.dot COproj - cyl.radius ^ 2
  let disc := b * b - 4 * a * c
  if 0 ≤ disc ∧ a = 0 then .error ()
  else
    let tSide :=
      if 0 ≤ disc then
        let sq := Real.sqrt disc
        [(-b - sq) / (2 * a), (-b + sq) / (2 * a)].filter (fun t =>
          let P := O + t • D
          let h := (P - cyl.base_center).dot axis
          decide (0 ≤ h) && decide (h ≤ cyl.height))
      else []
    let cap := fun (capH : ℝ) (capN : Vec3) =>
      let denom := D.dot capN
      if 1e-6 < |denom| then
        let t := ((cyl.base_center + capH • axis) - O).dot capN / denom
        if 0 < t then
          let P := O + t • D
          if (P - (cyl.base_center + capH • axis) - (0 : ℝ) • axis).length ≤ cyl.radius
          then [t] else []
        else []
      else []
    let tCaps := cap 0 (-axis) ++ cap cyl.height axis
    let tAll := tSide ++ tCaps
    if tAll = [] then .ok none else .ok (some (pySorted tAll))

/-- `Cylinder.normal_at`: `-axis` within `1e-6` of the bottom cap, `axis`
within `1e-6` of the top cap, otherwise the outward radial direction. -/
def Cylinder.normal_at (cyl : Cylinder) (P : Vec3) : Vec3 :=
  let AP := P - cyl.base_center
  let h := AP.dot cyl.axis
  if |h| < 1e-6 then -cyl.axis
  else if |h - cyl.height| < 1e-6 then cyl.axis
  else
    let axisPoint := cyl.base_center + h • cyl.axis
    (P - axisPoint).normalize

/-- The `SceneObject` view of a cylinder. -/
def Cylinder.obj (cyl : Cylinder) : SceneObject :=
  ⟨cyl.color, cyl.specular, cyl.reflective, cyl.intersect, cyl.normal_at⟩

/-- Stored attributes of a `Plane`: `__init__` stores `point` and sets
`self.normal = self.axis.normalize()` — the `normal` constructor argument is
not stored anywhere. -/
structure Plane where
  point : Vec3
  normal : Vec3
  color : Color
  specular : ℤ
  axis : Vec3
  reflective : ℝ

/-- `Plane(point, normal, color, specular, axis, reflective)`: the base class
stores `axis.normalize()` as `self.axis`, then `Plane.__init__` sets
`self.normal = self.axis.normalize()`; the `normal` argument is unused. -/
def mkPlane (point normal : Vec3) (color : Color) (specular : ℤ)
    (axis : Vec3) (reflective : ℝ) : Plane :=
  ⟨point, axis.normalize.normalize, color, specular, axis.normalize, reflective⟩

/-- `Plane.intersect`: a near-parallel ray (`|D·N| < 1e-6`) gives `None`;
otherwise `t = (point - O)·N / (D·N)`, rejected when negative, else the
one-element tuple `(t,)`. -/
def Plane.intersect (pl : Plane) (O D : Vec3) : Except Unit (Option (List ℝ)) :=
  let denom := D.dot pl.normal
  if |denom| < 1e-6 then .ok none
  else
    let t := (pl.point - O).dot pl.normal / denom
    if t < 0 then .ok none
    else .ok (some [t])

/-- `Plane.normal_at`: the stored normal, everywhere. -/
def Plane.normal_at (pl : Plane) (_ : Vec3) : Vec3 := pl.normal

/-- The `SceneObject` view of a plane. -/
def Plane.obj (pl : Plane) : SceneObject :=
  ⟨pl.color, pl.specular, pl.reflective, pl.intersect, pl.normal_at⟩

/-- `MAX_DEPTH = 3` from `src/RayTracing.py`. -/
def MAX_DEPTH : ℕ := 3

/-- `reflect(D, N) = D - N * 2 * D.dot(N)`. -/
def reflect (D N : Vec3) : Vec3 := D - (2 * D.dot N) • N

/-- `canvas_to_viewport(x, y, Vw, Vh, d, Cw, Ch)`. -/
def canvas_to_viewport (x y Vw Vh d : ℝ) (Cw Ch : ℕ) : Vec3 :=
  ⟨x * Vw / (Cw : ℝ), y * Vh / (Ch : ℝ), d⟩

/-- One step of the light loop of `ComputeLighting`, shared by the point and
directional branches once the unit light direction `L` is fixed: the diffuse
term is added when `N·L > 0`; when `s != -1` the specular term
`intensity * (R·V) ** s` with `R = N * (2 n_dot_l) - L` is added when
`R·V > 0`. -/
def diffSpec (N V : Vec3) (s : ℤ) (acc i : ℝ) (L : Vec3) : ℝ :=
  let ndl := N.dot L
  let acc1 := if 0 < ndl then acc + i * ndl else acc
  if s ≠ -1 then
    let R := (2 * ndl) • N - L
    let rdv := R.dot V
    if 0 < rdv then acc1 + i * rdv ^ s else acc1
  else acc1

/-- The body of the `for light in scene.lights` loop of `ComputeLighting`. -/
def lightTerm (P N V : Vec3) (s : ℤ) (acc : ℝ) (light : Light) : ℝ :=
  match light with
  | .ambient i => acc + i
  | .point i pos => diffSpec N V s acc i ((pos - P).normalize)
  | .directional i dir => diffSpec N V s acc i dir.normalize

/-- `ComputeLighting(P, N, scene, V, s)`: ambient, diffuse and specular terms
accumulated over every light, finally clamped by `min(1.0, intensity)`. -/
def ComputeLighting (P N : Vec3) (scene : Scene) (V : Vec3) (s : ℤ) : ℝ :=
  min 1 (scene.lights.foldl (lightTerm P N V s) 0)

/-- The inner `for t in ts` loop of `trace_ray`'s nearest-hit search: the
running state is `none` while `closest_t` is still `float('inf')` and
`closest_obj` is `None`, and `some (closest_t, closest_obj)` afterwards;
a candidate `t` replaces the state when `t_min <= t <= t_max` and
`t < closest_t`. -/
def scanTs (tMin : ℝ) (tMax : WithTop ℝ) (obj : SceneObject)
    (acc : Option (ℝ × SceneObject)) (ts : List ℝ) : Option (ℝ × SceneObject) :=
  ts.foldl (fun acc t =>
    if tMin ≤ t ∧ (t : WithTop ℝ) ≤ tMax ∧ (∀ c ∈ acc, t < c.1)
    then some (t, obj) else acc) acc

/-- The `for obj in scene.objects` nearest-hit loop of `trace_ray`: each
object's `intersect` is called (an exception aborts the whole search — the
`Except` bind), `None` results are skipped, and candidate `t` values update
the running minimum via `scanTs`. -/
def closestHit (objs : List SceneObject) (O D : Vec3) (tMin : ℝ) (tMax : WithTop ℝ) :
    Except Unit (Option (ℝ × SceneObject)) :=
  objs.foldlM (fun acc obj =>
    (obj.intersect O D).map (fun ts =>
      match ts with
      | none => acc
      | some ts => scanTs tMin tMax obj acc ts)) none

/-- The `local_color * (1 - reflective) + reflected_color * reflective`
per-channel mix of `trace_ray`, truncated to `int` as Python's `int(...)`. -/
def mixColors (localColor reflectedColor : Color) (reflective : ℝ) : Color :=
  (pyInt ((localColor.1 : ℝ) * (1 - reflective) + (reflectedColor.1 : ℝ) * reflective),
   pyInt ((localColor.2.1 : ℝ) * (1 - reflective) + (reflectedColor.2.1 : ℝ) * reflective),
   pyInt ((localColor.2.2 : ℝ) * (1 - reflective) + (reflectedColor.2.2 : ℝ) * reflective))

/-- `trace_ray(O, D, t_min, t_max, scene, depth)` from `src/RayTracing.py`:
depth exhaustion returns `(0, 0, 0)`; a missed scene returns
`(255, 255, 255)`; a hit is shaded locally via `ComputeLighting` and
`scale_rgb`, and when `reflective > 0` a recursive reflected ray (origin
offset by `R * 1e-4`, depth incremented) is mixed in per channel.  An
exception raised by an object's `intersect` (or by the recursive call)
propagates. -/
def trace_ray (O D : Vec3) (tMin : ℝ) (tMax : WithTop ℝ) (scene : Scene)
    (depth : ℕ) : Except Unit Color :=
  if MAX_DEPTH < depth then .ok (0, 0, 0)
  else
    match closestHit scene.objects O D tMin tMax with
    | .error e => .error e
    | .ok none => .ok (255, 255, 255)
    | .ok (some (t, obj)) =>
      let P := O + t • D
      let N := obj.normal_at P
      let V := -D
      let intensity := ComputeLighting P N scene V obj.specular
      let localColor := scale_rgb obj.color intensity
      if 0 < obj.reflective then
        let R := (reflect D N).normalize
        match trace_ray (P + (1e-4 : ℝ) • R) R tMin tMax scene (depth + 1) with
        | .error e => .error e
        | .ok reflectedColor => .ok (mixColors localColor reflectedColor obj.reflective)
      else .ok localColor
  termination_by MAX_DEPTH + 1 - depth
  decreasing_by simp only [MAX_DEPTH] at *; omega

/-- One plotted pixel: `win.plot(x, y, color_hex)`. -/
abbrev Plot := ℕ × ℕ × String

/-- The pixel computation shared verbatim by `render_row` and
`render_sequential`: canvas coordinates `(x - width/2, height/2 - y)`, the
viewport direction normalized, `trace_ray` from the origin with
`t_min = 1.0`, `t_max = inf`, depth `0`, and the colour hex-encoded. -/
def pixelHex (scene : Scene) (width height : ℕ) (x y : ℕ) : Except Unit String :=
  let xc : ℝ := (x : ℝ) - (width : ℝ) / 2
  let yc : ℝ := (height : ℝ) / 2 - (y : ℝ)
  let direction := (canvas_to_viewport xc yc 1 1 1 width height).normalize
  (trace_ray ⟨0, 0, 0⟩ direction 1 ⊤ scene 0).map rgb_to_hex

/-- `render_row(y, ...)`: the row's pixels left to right (the returned row
index equals the argument `y` and is kept implicit). -/
def render_row (scene : Scene) (width height : ℕ) (y : ℕ) : Except Unit (List String) :=
  (List.range width).mapM (fun x => pixelHex scene width height x y)

/-- `render_sequential`: rows top to bottom, pixels left to right, each
plotted immediately; the render aborts if any pixel's trace raises. -/
def render_sequential (scene : Scene) (width height : ℕ) : Except Unit (List Plot) :=
  ((List.range height).mapM (fun y =>
    (List.range width).mapM (fun x =>
      (pixelHex scene width height x y).map (fun s => (x, y, s))))).map List.flatten

/-- Phase 1 of `render_parallel_rows`: rows are computed in an arbitrary
completion order (`order`) and written into the pre-allocated buffer
`[None] * height` at their own index; `future.result()` re-raises a row's
exception. -/
def renderParallelPhase1 (scene : Scene) (width height : ℕ) (order : List ℕ) :
    Except Unit (List (Option (List String))) :=
  order.foldlM (fun buf y =>
    (render_row scene width height y).map (fun row => buf.set y (some row)))
    (List.replicate height none)

/-- The body of phase 2's outer loop, for one buffer slot `(y, row_colors)`:
`for x, color_hex in enumerate(row_colors): plot(x, y, color_hex)` —
iterating over a slot still holding `None` raises. -/
def phase2Step (p : ℕ × Option (List String)) : Except Unit (List Plot) :=
  match p.2 with
  | none => .error ()
  | some row => .ok (row.enum.map (fun (q : ℕ × String) => (q.1, p.1, q.2)))

/-- Phase 2 of `render_parallel_rows`: `for y, row_colors in
enumerate(row_results)` over the buffer, emitting the plots row by row. -/
def renderParallelPhase2 (buf : List (Option (List String))) : Except Unit (List Plot) :=
  (buf.enum.mapM phase2Step).map List.flatten

/-- `render_parallel_rows`, for a given completion order of the row futures. -/
def render_parallel_rows (scene : Scene) (width height : ℕ) (order : List ℕ) :
    Except Unit (List Plot) :=
  (renderParallelPhase1 scene width height order).bind renderParallelPhase2

/-- The parameters an object's `intersect` result contributes to the
nearest-hit search: the returned list (empty for `None`), restricted to
`t_min <= t <= t_max`. -/
def validTs (tMin : ℝ) (tMax : WithTop ℝ) (r : Option (List ℝ)) : List ℝ :=
  (r.getD []).filter (fun t => decide (tMin ≤ t) && decide ((t : WithTop ℝ) ≤ tMax))

/-- The update of the running minimum by one in-range candidate: an empty
state (`closest_t = inf`) always updates, otherwise only a strictly smaller
`t` does (the code's `t < closest_t`). -/
def hitStep (acc : Option (ℝ × SceneObject)) (c : ℝ × SceneObject) :
    Option (ℝ × SceneObject) :=
  match acc with
  | none => some c
  | some p => if c.1 < p.1 then some c else acc

/-- A scene with no objects and no lights. -/
def emptyScene : Scene := ⟨[], []⟩

/-- The spec's concrete sphere: `Sphere(center=(0,0,0), r=1)` with the
constructor's default colour, specular, axis and reflectivity. -/
def unitSphere : Sphere := mkSphere ⟨0, 0, 0⟩ 1 (255, 0, 0) 500 ⟨0, 1, 0⟩ 0

/-- A sphere two units in front of the camera along `z`, used as a concrete
scene: the ray `O=(0,0,0)`, `D=(0,0,1)` meets it at `t = 2` and `t = 4`. -/
def testSphere : Sphere := mkSphere ⟨0, 0, 3⟩ 1 (255, 0, 0) 500 ⟨0, 1, 0⟩ 0

/-- A one-object, zero-light scene around `testSphere`. -/
def testSphereScene : Scene := ⟨[testSphere.obj], []⟩

/-- A cylinder whose axis is the `z`-axis: the camera ray `D = (0,0,1)` is
parallel to the axis, so the lateral projection of `D` is the zero vector. -/
def zCylinder : Cylinder := mkCylinder ⟨0, 0, 5⟩ ⟨0, 0, 1⟩ 1 1 (255, 0, 0) 500 0

/-- A scene containing only `zCylinder`. -/
def zCylinderScene : Scene := ⟨[zCylinder.obj], []⟩

/-- The colour list computed by a successfully completed row, and `[]` when
the row's computation raised (used only to name the successful value). -/
def rowValue (scene : Scene) (width height y : ℕ) : List String :=
  (render_row scene width height y).toOption.getD []

end

noncomputable section

@[simp] theorem Vec3.add_def (a b : Vec3) :
    a + b = ⟨a.x + b.x, a.y + b.y, a.z + b.z⟩ := rfl

@[simp] theorem Vec3.sub_def (a b : Vec3) :
    a - b = ⟨a.x - b.x, a.y - b.y, a.z - b.z⟩ := rfl

@[simp] theorem Vec3.neg_def (a : Vec3) : -a = ⟨-a.x, -a.y, -a.z⟩ := rfl

@[simp] theorem Vec3.smul_def (s : ℝ) (a : Vec3) :
    s • a = ⟨s * a.x, s * a.y, s * a.z⟩ := rfl

theorem Vec3.dot_self_nonneg (a : Vec3) : 0 ≤ a.dot a := by
  unfold Vec3.dot
  have hx := mul_self_nonneg a.x
  have hy := mul_self_nonneg a.y
  have hz := mul_self_nonneg a.z
  linarith

theorem pyInt_intCast (n : ℤ) : pyInt (n : ℝ) = n := by
  unfold pyInt; split <;> simp

theorem sqrt_four : Real.sqrt 4 = 2 := by
  rw [show (4 : ℝ) = 2 ^ 2 by norm_num, Real.sqrt_sq (by norm_num)]

theorem Vec3.length_eq_zero_of_dot (a : Vec3) (h : a.dot a = 0) : a.length = 0 := by
  simp [Vec3.length, h]

theorem Vec3.normalize_length (a : Vec3) (h : a.length ≠ 0) :
    a.normalize.length = 1 := by
  have hdn : 0 ≤ a.dot a := a.dot_self_nonneg
  have hl : a.length * a.length = a.dot a := Real.mul_self_sqrt hdn
  have hd : a.dot a ≠ 0 := fun h0 => h (a.length_eq_zero_of_dot h0)
  have key : Vec3.dot ⟨a.x / a.length, a.y / a.length, a.z / a.length⟩
      ⟨a.x / a.length, a.y / a.length, a.z / a.length⟩ = a.dot a / (a.length * a.length) := by
    simp only [Vec3.dot]
    field_simp
  unfold Vec3.normalize
  rw [if_neg h]
  show Real.sqrt (Vec3.dot _ _) = 1
  rw [key, hl, div_self hd, Real.sqrt_one]

theorem Vec3.normalize_of_length_zero (a : Vec3) (h : a.length = 0) :
    a.normalize = a := by
  unfold Vec3.normalize; rw [if_pos h]

theorem Vec3.normalize_of_length_one (a : Vec3) (h : a.length = 1) :
    a.normalize = a := by
  unfold Vec3.normalize
  rw [if_neg (by rw [h]; exact one_ne_zero), h]
  simp

theorem Vec3.normalize_normalize (a : Vec3) : a.normalize.normalize = a.normalize := by
  by_cases h : a.length = 0
  · rw [a.normalize_of_length_zero h, a.normalize_of_length_zero h]
  · exact (a.normalize).normalize_of_length_one (a.normalize_length h)

/-- C10: every `Plane` uses the normalized `axis` constructor argument as its
surface normal (the base class stores `axis.normalize()` and
`Plane.__init__` then stores `self.axis.normalize()`, which is the same
vector by idempotence of `normalize`); the `normal` constructor argument is
stored nowhere and never influences intersection or shading. -/
theorem plane_normal_ignores_argument (p n₁ n₂ : Vec3) (c : Color) (s : ℤ)
    (a : Vec3) (r : ℝ) :
    mkPlane p n₁ c s a r = mkPlane p n₂ c s a r ∧
    mkPlane p n₁ c s a r = ⟨p, a.normalize, c, s, a.normalize, r⟩ ∧
    ∀ P, (mkPlane p n₁ c s a r).normal_at P = a.normalize := by
  refine ⟨rfl, ?_, ?_⟩
  · unfold mkPlane
    rw [Vec3.normalize_normalize]
  · intro P
    unfold Plane.normal_at mkPlane
    rw [Vec3.normalize_normalize]

theorem VectorUtilities.dot_self_zero (v : List ℝ) (h : ∀ x ∈ v, x = 0) :
    VectorUtilities.dot v v = 0 := by
  unfold VectorUtilities.dot
  induction v with
  | nil => simp
  | cons x xs ih =>
    simp only [List.zipWith_cons_cons, List.sum_cons]
    rw [h x (List.mem_cons_self x xs), ih (fun y hy => h y (List.mem_cons_of_mem x hy))]
    ring

/-- C8: `normalize` applied to a zero vector returns the vector unchanged (the
`l == 0` guard of `VectorUtilities.normalize`), raising no error; it is a
total function of its numeric input. -/
theorem normalize_zero_vector (v : List ℝ) (h : ∀ x ∈ v, x = 0) :
    VectorUtilities.normalize v = v := by
  unfold VectorUtilities.normalize VectorUtilities.length
  rw [VectorUtilities.dot_self_zero v h, Real.sqrt_zero]
  simp

/-- C8 witness: the zero 3-vector is returned unchanged. -/
theorem normalize_zero_vector_witness :
    VectorUtilities.normalize [0, 0, 0] = [0, 0, 0] :=
  normalize_zero_vector [0, 0, 0] (by simp)

/-- C9: constructing any `Light` variant with an intensity outside `[0, 1]`
raises at construction time, and constructing one with an intensity inside
`[0, 1]` succeeds and stores that intensity unchanged. -/
theorem light_intensity_validated (i : ℝ) (pos dir : Vec3) :
    (¬(0 ≤ i ∧ i ≤ 1) →
      mkAmbientLight i = .error () ∧ mkPointLight i pos = .error () ∧
      mkDirectionalLight i dir = .error ()) ∧
    ((0 ≤ i ∧ i ≤ 1) →
      mkAmbientLight i = .ok (.ambient i) ∧ mkPointLight i pos = .ok (.point i pos) ∧
      mkDirectionalLight i dir = .ok (.directional i dir) ∧
      Light.intensity (.ambient i) = i ∧ Light.intensity (.point i pos) = i ∧
      Light.intensity (.directional i dir) = i) := by
  unfold mkAmbientLight mkPointLight mkDirectionalLight
  constructor
  · intro h; rw [if_neg h, if_neg h, if_neg h]; exact ⟨rfl, rfl, rfl⟩
  · intro h; rw [if_pos h, if_pos h, if_pos h]
    exact ⟨rfl, rfl, rfl, rfl, rfl, rfl⟩

/-- C9 witness: intensity `2` is rejected by every variant, intensity `1/2`
is accepted and stored unchanged. -/
theorem light_intensity_validated_witness :
    mkAmbientLight 2 = .error () ∧
    mkPointLight (1/2) ⟨0, 0, 0⟩ = .ok (.point (1/2) ⟨0, 0, 0⟩) := by
  constructor
  · exact ((light_intensity_validated 2 ⟨0, 0, 0⟩ ⟨0, 0, 0⟩).1 (by norm_num)).1
  · exact (((light_intensity_validated (1/2) ⟨0, 0, 0⟩ ⟨0, 0, 0⟩).2 (by norm_num)).2).1

/-- C1 (amended): a call with `depth > MAX_DEPTH` returns `(0, 0, 0)` (black),
the code's terminal value for exhausted recursion — not the no-hit background
white `(255, 255, 255)`. -/
theorem trace_ray_depth_exhausted_black (O D : Vec3) (tMin : ℝ) (tMax : WithTop ℝ)
    (scene : Scene) (depth : ℕ) (h : MAX_DEPTH < depth) :
    trace_ray O D tMin tMax scene depth = .ok (0, 0, 0) := by
  rw [trace_ray]
  rw [if_pos h]

/-- C1 witness: at depth `4` the tracer returns black. -/
theorem trace_ray_depth_exhausted_black_witness :
    MAX_DEPTH < 4 ∧ trace_ray ⟨0, 0, 0⟩ ⟨0, 0, 1⟩ 1 ⊤ emptyScene 4 = .ok (0, 0, 0) :=
  ⟨by norm_num [MAX_DEPTH],
   trace_ray_depth_exhausted_black _ _ _ _ _ _ (by norm_num [MAX_DEPTH])⟩

/-- C1 counterexample: at depth `4 > MAX_DEPTH` the returned colour is
`(0, 0, 0)`, which differs from the background white `(255, 255, 255)`
claimed for depth exhaustion. -/
theorem trace_ray_depth_exhausted_not_white :
    trace_ray ⟨0, 0, 0⟩ ⟨0, 0, 1⟩ 1 ⊤ emptyScene 4 = .ok (0, 0, 0) ∧
    ((0, 0, 0) : Color) ≠ ((255, 255, 255) : Color) := by
  constructor
  · rw [trace_ray]
    rw [if_pos (by norm_num [MAX_DEPTH])]
  · decide

/-- C5 (amended): `Sphere.intersect` returns `None` exactly when the
discriminant `b² - 4ac` is negative; when the discriminant is non-negative it
returns the two quadratic roots, provided `a = D·D ≠ 0` — for `a = 0` (the
zero direction) the Python division by `2a` raises `ZeroDivisionError`.  The
spec's concrete instance holds: the unit sphere at the origin and the ray
`O=(0,0,0)`, `D=(0,0,1)` give parameters `{1.0, -1.0}`. -/
theorem sphere_intersect_quadratic (s : Sphere) (O D : Vec3) (a b c disc : ℝ)
    (ha : a = D.dot D) (hb : b = 2 * D.dot (O - s.center))
    (hc : c = (O - s.center).dot (O - s.center) - s.radius ^ 2)
    (hdisc : disc = b * b - 4 * a * c) :
    (s.intersect O D = .ok none ↔ disc < 0) ∧
    (0 ≤ disc → a = 0 → s.intersect O D = .error ()) ∧
    (0 ≤ disc → a ≠ 0 → s.intersect O D =
      .ok (some [(-b + Real.sqrt disc) / (2 * a), (-b - Real.sqrt disc) / (2 * a)])) ∧
    unitSphere.intersect ⟨0, 0, 0⟩ ⟨0, 0, 1⟩ = .ok (some [1, -1]) := by
  subst ha hb hc hdisc
  refine ⟨?_, ?_, ?_, ?_⟩
  · simp only [Sphere.intersect]
    split_ifs with h1 h2
    · exact iff_of_true rfl h1
    · exact iff_of_false (by simp) h1
    · exact iff_of_false (by simp) h1
  · intro h0 ha0
    simp only [Sphere.intersect]
    rw [if_neg (not_lt.mpr h0), if_pos ha0]
  · intro h0 ha0
    simp only [Sphere.intersect]
    rw [if_neg (not_lt.mpr h0), if_neg ha0]
  · norm_num [unitSphere, mkSphere, Sphere.intersect, Vec3.dot, sqrt_four]

/-- C5 witness: the amended characterisation instantiated at the unit sphere
and the ray `O=(0,0,0)`, `D=(0,0,1)` (`a = 1`, `b = 0`, `c = -1`,
`disc = 4`). -/
theorem sphere_intersect_quadratic_witness :
    unitSphere.intersect ⟨0, 0, 0⟩ ⟨0, 0, 1⟩ = .ok (some [1, -1]) :=
  (sphere_intersect_quadratic unitSphere ⟨0, 0, 0⟩ ⟨0, 0, 1⟩ 1 0 (-1) 4
    (by norm_num [Vec3.dot])
    (by norm_num [Vec3.dot, unitSphere, mkSphere])
    (by norm_num [Vec3.dot, unitSphere, mkSphere])
    (by norm_num)).2.2.2

/-- C5 counterexample: for the zero direction the discriminant is `0` (not
negative), yet `Sphere.intersect` does not return the two roots — the Python
division `(-b + sqrt_disc) / (2 * a)` raises `ZeroDivisionError` (`a = 0`),
modelled as the error outcome. -/
theorem sphere_intersect_zero_direction_raises :
    unitSphere.intersect ⟨0, 0, 0⟩ ⟨0, 0, 0⟩ = .error () := by
  norm_num [unitSphere, mkSphere, Sphere.intersect, Vec3.dot]

theorem hitStep_of_valid (tMin : ℝ) (tMax : WithTop ℝ) (obj : SceneObject)
    (acc : Option (ℝ × SceneObject)) (t : ℝ) (h1 : tMin ≤ t)
    (h2 : (t : WithTop ℝ) ≤ tMax) :
    (if tMin ≤ t ∧ (t : WithTop ℝ) ≤ tMax ∧ (∀ c ∈ acc, t < c.1)
     then some (t, obj) else acc) = hitStep acc (t, obj) := by
  cases acc with
  | none =>
    rw [if_pos ⟨h1, h2, by simp⟩]
    rfl
  | some p =>
    by_cases h3 : t < p.1
    · have hcond : tMin ≤ t ∧ (t : WithTop ℝ) ≤ tMax ∧ (∀ c ∈ some p, t < c.1) := by
        refine ⟨h1, h2, ?_⟩
        intro c hc
        rw [Option.mem_def] at hc
        cases Option.some.inj hc
        exact h3
      rw [if_pos hcond]
      simp [hitStep, h3]
    · have hcond : ¬(tMin ≤ t ∧ (t : WithTop ℝ) ≤ tMax ∧ (∀ c ∈ some p, t < c.1)) :=
        fun hcond => h3 (hcond.2.2 p (Option.mem_def.mpr rfl))
      rw [if_neg hcond]
      simp [hitStep, h3]

theorem scanTs_eq_foldl (tMin : ℝ) (tMax : WithTop ℝ) (obj : SceneObject) :
    ∀ (ts : List ℝ) (acc : Option (ℝ × SceneObject)),
    scanTs tMin tMax obj acc ts =
      ((validTs tMin tMax (some ts)).map (fun t => (t, obj))).foldl hitStep acc := by
  intro ts
  induction ts with
  | nil => intro acc; rfl
  | cons t ts ih =>
    intro acc
    have hrw : scanTs tMin tMax obj acc (t :: ts) =
        scanTs tMin tMax obj
          (if tMin ≤ t ∧ (t : WithTop ℝ) ≤ tMax ∧ (∀ c ∈ acc, t < c.1)
           then some (t, obj) else acc) ts := rfl
    by_cases h1 : tMin ≤ t
    · by_cases h2 : (t : WithTop ℝ) ≤ tMax
      · have hf : validTs tMin tMax (some (t :: ts)) = t :: validTs tMin tMax (some ts) := by
          simp [validTs, h1, h2]
        rw [hf, List.map_cons, List.foldl_cons, hrw, hitStep_of_valid tMin tMax obj acc t h1 h2]
        exact ih _
      · have hf : validTs tMin tMax (some (t :: ts)) = validTs tMin tMax (some ts) := by
          simp [validTs, h2]
        rw [hf, hrw, if_neg (fun hcond => h2 hcond.2.1)]
        exact ih _
    · have hf : validTs tMin tMax (some (t :: ts)) = validTs tMin tMax (some ts) := by
        simp [validTs, h1]
      rw [hf, hrw, if_neg (fun hcond => h1 hcond.1)]
      exact ih _

theorem foldlM_map_ok {α β σ : Type} (F : α → Except Unit β) (G : α → β)
    (U : σ → α → β → σ) :
    ∀ (l : List α) (init : σ), (∀ a ∈ l, F a = .ok (G a)) →
    (l.foldlM (fun s a => (F a).map (U s a)) init) =
      .ok (l.foldl (fun s a => U s a (G a)) init) := by
  intro l
  induction l with
  | nil => intro init _; rfl
  | cons a as ih =>
    intro init h
    rw [List.foldlM_cons, h a (List.mem_cons_self a as)]
    rw [List.foldl_cons]
    exact ih (U init a (G a)) (fun b hb => h b (List.mem_cons_of_mem a hb))

theorem foldl_congr_mem {α β : Type _} :
    ∀ (l : List α) (f g : β → α → β) (init : β),
    (∀ b, ∀ a ∈ l, f b a = g b a) → l.foldl f init = l.foldl g init := by
  intro l
  induction l with
  | nil => intro f g init _; rfl
  | cons a as ih =>
    intro f g init h
    rw [List.foldl_cons, List.foldl_cons, h init a (List.mem_cons_self a as)]
    exact ih f g _ (fun b a' ha' => h b a' (List.mem_cons_of_mem a ha'))

theorem closestHit_eq_foldl (objs : List SceneObject) (O D : Vec3) (tMin : ℝ)
    (tMax : WithTop ℝ) (res : SceneObject → Option (List ℝ))
    (H : ∀ obj ∈ objs, obj.intersect O D = .ok (res obj)) :
    closestHit objs O D tMin tMax =
      .ok (objs.foldl (fun acc o =>
        ((validTs tMin tMax (res o)).map (fun t => (t, o))).foldl hitStep acc) none) := by
  have h1 := foldlM_map_ok (fun obj => obj.intersect O D) res
    (fun acc obj ts =>
      match ts with
      | none => acc
      | some ts => scanTs tMin tMax obj acc ts) objs none H
  refine h1.trans (congrArg Except.ok ?_)
  apply foldl_congr_mem
  intro acc o _
  cases hres : res o with
  | none => simp [validTs]
  | some ts => exact scanTs_eq_foldl tMin tMax o ts acc

theorem foldl_hitStep_spec (l : List (ℝ × SceneObject)) :
    ∀ (acc : Option (ℝ × SceneObject)),
    (List.foldl hitStep acc l = acc ∧ ∀ p ∈ l, ∃ q, acc = some q ∧ q.1 ≤ p.1) ∨
    (∃ l1 c l2, l = l1 ++ c :: l2 ∧ List.foldl hitStep acc l = some c ∧
      (∀ q, acc = some q → c.1 < q.1) ∧ (∀ p ∈ l, c.1 ≤ p.1) ∧
      (∀ p ∈ l1, c.1 < p.1)) := by
  induction l with
  | nil =>
    intro acc
    left
    exact ⟨rfl, by simp⟩
  | cons p ps ih =>
    intro acc
    rw [List.foldl_cons]
    cases acc with
    | none =>
      simp only [show hitStep none p = some p from rfl]
      rcases ih (some p) with ⟨hfold, hall⟩ | ⟨m1, c, m2, heq, hfold, hacc, hmin, hstrict⟩
      · right
        refine ⟨[], p, ps, by simp, hfold, fun q hq => Option.noConfusion hq, ?_, by simp⟩
        intro r hr
        rcases List.mem_cons.mp hr with heq' | hr'
        · subst heq'; exact le_refl _
        · rcases hall r hr' with ⟨q, hq, hle⟩
          cases Option.some.inj hq
          exact hle
      · right
        have hcp : c.1 < p.1 := hacc p rfl
        refine ⟨p :: m1, c, m2, by rw [heq]; rfl, hfold,
          fun q hq => Option.noConfusion hq, ?_, ?_⟩
        · intro r hr
          rcases List.mem_cons.mp hr with heq' | hr'
          · subst heq'; exact le_of_lt hcp
          · exact hmin r (heq ▸ hr')
        · intro r hr
          rcases List.mem_cons.mp hr with heq' | hr'
          · subst heq'; exact hcp
          · exact hstrict r hr'
    | some q0 =>
      by_cases hlt : p.1 < q0.1
      · simp only [show hitStep (some q0) p = some p from if_pos hlt]
        rcases ih (some p) with ⟨hfold, hall⟩ | ⟨m1, c, m2, heq, hfold, hacc, hmin, hstrict⟩
        · right
          refine ⟨[], p, ps, by simp, hfold, ?_, ?_, by simp⟩
          · intro q hq
            cases Option.some.inj hq
            exact hlt
          · intro r hr
            rcases List.mem_cons.mp hr with heq' | hr'
            · subst heq'; exact le_refl _
            · rcases hall r hr' with ⟨q, hq, hle⟩
              cases Option.some.inj hq
              exact hle
        · right
          have hcp : c.1 < p.1 := hacc p rfl
          refine ⟨p :: m1, c, m2, by rw [heq]; rfl, hfold, ?_, ?_, ?_⟩
          · intro q hq
            cases Option.some.inj hq
            exact lt_trans hcp hlt
          · intro r hr
            rcases List.mem_cons.mp hr with heq' | hr'
            · subst heq'; exact le_of_lt hcp
            · exact hmin r (heq ▸ hr')
          · intro r hr
            rcases List.mem_cons.mp hr with heq' | hr'
            · subst heq'; exact hcp
            · exact hstrict r hr'
      · simp only [show hitStep (some q0) p = some q0 from if_neg hlt]
        have hq0p : q0.1 ≤ p.1 := not_lt.mp hlt
        rcases ih (some q0) with ⟨hfold, hall⟩ | ⟨m1, c, m2, heq, hfold, hacc, hmin, hstrict⟩
        · left
          refine ⟨hfold, ?_⟩
          intro r hr
          rcases List.mem_cons.mp hr with heq' | hr'
          · subst heq'; exact ⟨q0, rfl, hq0p⟩
          · exact hall r hr'
        · right
          have hcq : c.1 < q0.1 := hacc q0 rfl
          refine ⟨p :: m1, c, m2, by rw [heq]; rfl, hfold, ?_, ?_, ?_⟩
          · intro q hq
            cases Option.some.inj hq
            exact hcq
          · intro r hr
            rcases List.mem_cons.mp hr with heq' | hr'
            · subst heq'; exact le_trans (le_of_lt hcq) hq0p
            · exact hmin r (heq ▸ hr')
          · intro r hr
            rcases List.mem_cons.mp hr with heq' | hr'
            · subst heq'; exact lt_of_lt_of_le hcq hq0p
            · exact hstrict r hr'

theorem foldl_scan_spec (tMin : ℝ) (tMax : WithTop ℝ)
    (res : SceneObject → Option (List ℝ)) :
    ∀ (objs : List SceneObject) (acc : Option (ℝ × SceneObject)),
    (objs.foldl (fun acc o =>
        ((validTs tMin tMax (res o)).map (fun t => (t, o))).foldl hitStep acc) acc = acc ∧
      ∀ o ∈ objs, ∀ u ∈ validTs tMin tMax (res o), ∃ q, acc = some q ∧ q.1 ≤ u) ∨
    (∃ pre o post t, objs = pre ++ o :: post ∧
      objs.foldl (fun acc o =>
        ((validTs tMin tMax (res o)).map (fun t => (t, o))).foldl hitStep acc) acc
        = some (t, o) ∧
      t ∈ validTs tMin tMax (res o) ∧ (∀ q, acc = some q → t < q.1) ∧
      (∀ o' ∈ objs, ∀ u ∈ validTs tMin tMax (res o'), t ≤ u) ∧
      (∀ o' ∈ pre, ∀ u ∈ validTs tMin tMax (res o'), t < u)) := by
  intro objs
  induction objs with
  | nil =>
    intro acc
    left
    exact ⟨rfl, by simp⟩
  | cons o os ih =>
    intro acc
    rw [List.foldl_cons]
    rcases foldl_hitStep_spec ((validTs tMin tMax (res o)).map (fun t => (t, o))) acc with
      ⟨hfold, hall⟩ | ⟨l1, c, l2, hsplit, hfold, hacc, hmin, hstrict⟩
    · rw [hfold]
      rcases ih acc with ⟨hfold2, hall2⟩ |
        ⟨pre, o', post, t, hsplit2, hfold2, hcand2, hacc2, hmin2, hstrict2⟩
      · left
        refine ⟨hfold2, ?_⟩
        intro o'' ho'' u hu
        rcases List.mem_cons.mp ho'' with heq' | ho'''
        · subst heq'
          exact hall (u, o'') (List.mem_map_of_mem _ hu)
        · exact hall2 o'' ho''' u hu
      · right
        refine ⟨o :: pre, o', post, t, by rw [hsplit2]; rfl, hfold2, hcand2, hacc2, ?_, ?_⟩
        · intro o'' ho'' u hu
          rcases List.mem_cons.mp ho'' with heq' | ho'''
          · subst heq'
            rcases hall (u, o'') (List.mem_map_of_mem _ hu) with ⟨q, hq, hle⟩
            exact le_of_lt (lt_of_lt_of_le (hacc2 q hq) hle)
          · exact hmin2 o'' ho''' u hu
        · intro o'' ho'' u hu
          rcases List.mem_cons.mp ho'' with heq' | ho'''
          · subst heq'
            rcases hall (u, o'') (List.mem_map_of_mem _ hu) with ⟨q, hq, hle⟩
            exact lt_of_lt_of_le (hacc2 q hq) hle
          · exact hstrict2 o'' ho''' u hu
    · have hcmem : c ∈ (validTs tMin tMax (res o)).map (fun t => (t, o)) := by
        rw [hsplit]
        exact List.mem_append_right _ (List.mem_cons_self c l2)
      obtain ⟨u, hu, huc⟩ := List.mem_map.mp hcmem
      subst huc
      rw [hfold]
      rcases ih (some (u, o)) with ⟨hfold2, hall2⟩ |
        ⟨pre, o', post, t, hsplit2, hfold2, hcand2, hacc2, hmin2, hstrict2⟩
      · right
        refine ⟨[], o, os, u, by simp, hfold2, hu, ?_, ?_, by simp⟩
        · intro q hq
          exact hacc q hq
        · intro o'' ho'' v hv
          rcases List.mem_cons.mp ho'' with heq' | ho'''
          · subst heq'
            exact hmin (v, o'') (List.mem_map_of_mem _ hv)
          · rcases hall2 o'' ho''' v hv with ⟨q, hq, hle⟩
            cases Option.some.inj hq
            exact hle
      · right
        have htu : t < u := hacc2 (u, o) rfl
        refine ⟨o :: pre, o', post, t, by rw [hsplit2]; rfl, hfold2, hcand2, ?_, ?_, ?_⟩
        · intro q hq
          exact lt_trans htu (hacc q hq)
        · intro o'' ho'' v hv
          rcases List.mem_cons.mp ho'' with heq' | ho'''
          · subst heq'
            exact le_of_lt (lt_of_lt_of_le htu (hmin (v, o'') (List.mem_map_of_mem _ hv)))
          · exact hmin2 o'' ho''' v hv
        · intro o'' ho'' v hv
          rcases List.mem_cons.mp ho'' with heq' | ho'''
          · subst heq'
            exact lt_of_lt_of_le htu (hmin (v, o'') (List.mem_map_of_mem _ hv))
          · exact hstrict2 o'' ho''' v hv

/-- C4: in `trace_ray`'s nearest-hit search, a selected hit `(t, obj)` owns an
in-range intersection parameter that is the global minimum over every object's
in-range parameters; on an exact tie the object appearing first in the scene's
object list is selected (every object strictly before the winner has all of
its in-range parameters strictly greater); and whenever some object has an
in-range parameter, a hit is selected. -/
theorem closestHit_nearest_first (objs : List SceneObject) (O D : Vec3) (tMin : ℝ)
    (tMax : WithTop ℝ) (res : SceneObject → Option (List ℝ))
    (H : ∀ obj ∈ objs, obj.intersect O D = .ok (res obj)) :
    (∀ t obj, closestHit objs O D tMin tMax = .ok (some (t, obj)) →
      t ∈ validTs tMin tMax (res obj) ∧
      (∀ o ∈ objs, ∀ u ∈ validTs tMin tMax (res o), t ≤ u) ∧
      (∃ pre post, objs = pre ++ obj :: post ∧
        ∀ o ∈ pre, ∀ u ∈ validTs tMin tMax (res o), t < u)) ∧
    ((∃ o ∈ objs, validTs tMin tMax (res o) ≠ []) →
      ∃ t obj, closestHit objs O D tMin tMax = .ok (some (t, obj))) := by
  have hA := closestHit_eq_foldl objs O D tMin tMax res H
  constructor
  · intro t obj hok
    rw [hA] at hok
    have hfold := Except.ok.inj hok
    rcases foldl_scan_spec tMin tMax res objs none with ⟨hfold2, _⟩ |
      ⟨pre, o', post, t', hsplit2, hfold2, hcand2, _, hmin2, hstrict2⟩
    · rw [hfold2] at hfold
      exact Option.noConfusion hfold
    · rw [hfold2] at hfold
      have hpair := Option.some.inj hfold
      have ht : t' = t := congrArg Prod.fst hpair
      have ho : o' = obj := congrArg Prod.snd hpair
      subst ht
      subst ho
      exact ⟨hcand2, hmin2, pre, post, hsplit2, hstrict2⟩
  · rintro ⟨o, ho, hne⟩
    rcases foldl_scan_spec tMin tMax res objs none with ⟨_, hall⟩ |
      ⟨pre, o', post, t', _, hfold2, _, _, _, _⟩
    · obtain ⟨u, hu⟩ := List.exists_mem_of_ne_nil _ hne
      rcases hall o ho u hu with ⟨q, hq, _⟩
      exact Option.noConfusion hq
    · exact ⟨t', o', by rw [hA, hfold2]⟩

theorem testSphere_intersect :
    testSphere.obj.intersect ⟨0, 0, 0⟩ ⟨0, 0, 1⟩ = .ok (some [4, 2]) := by
  norm_num [testSphere, mkSphere, Sphere.obj, Sphere.intersect, Vec3.dot, sqrt_four]

theorem validTs_of_test : validTs 1 ⊤ (some [4, 2]) = [4, 2] := by
  simp only [validTs, Option.getD_some]
  rw [List.filter_cons, List.filter_cons, List.filter_nil]
  rw [if_pos (by simp only [Bool.and_eq_true, decide_eq_true_eq]; exact ⟨by norm_num, le_top⟩),
    if_pos (by simp only [Bool.and_eq_true, decide_eq_true_eq]; exact ⟨by norm_num, le_top⟩)]

theorem testSphere_residual :
    ∀ obj ∈ [testSphere.obj], obj.intersect ⟨0, 0, 0⟩ ⟨0, 0, 1⟩ =
      .ok ((fun _ => some [4, 2]) obj) := by
  intro obj h
  rw [List.mem_singleton] at h
  subst h
  exact testSphere_intersect

theorem testSphere_closestHit :
    closestHit [testSphere.obj] ⟨0, 0, 0⟩ ⟨0, 0, 1⟩ 1 ⊤ =
      .ok (some (2, testSphere.obj)) := by
  rw [closestHit_eq_foldl [testSphere.obj] ⟨0, 0, 0⟩ ⟨0, 0, 1⟩ 1 ⊤ (fun _ => some [4, 2])
    testSphere_residual]
  rw [List.foldl_cons, List.foldl_nil]
  rw [validTs_of_test]
  rw [List.map_cons, List.map_cons, List.map_nil, List.foldl_cons, List.foldl_cons,
    List.foldl_nil]
  rw [show hitStep none (4, testSphere.obj) = some (4, testSphere.obj) from rfl]
  rw [show hitStep (some (4, testSphere.obj)) (2, testSphere.obj)
      = some (2, testSphere.obj) from if_pos (by norm_num)]

/-- C4 witness: for the one-sphere scene hit by the ray `O=(0,0,0)`,
`D=(0,0,1)` (in-range parameters `[4, 2]`), the nearest-hit search selects a
hit. -/
theorem closestHit_nearest_first_witness :
    ∃ t obj, closestHit [testSphere.obj] ⟨0, 0, 0⟩ ⟨0, 0, 1⟩ 1 ⊤ =
      .ok (some (t, obj)) :=
  (closestHit_nearest_first [testSphere.obj] ⟨0, 0, 0⟩ ⟨0, 0, 1⟩ 1 ⊤
    (fun _ => some [4, 2]) testSphere_residual).2
    ⟨testSphere.obj, List.mem_cons_self _ _, by rw [validTs_of_test]; simp⟩

/-- C6: a ray traced from depth `0` such that every object's `intersect`
returns with no parameter inside `[t_min, t_max]` yields exactly the
background colour `(255, 255, 255)`. -/
theorem trace_ray_miss_white (O D : Vec3) (tMin : ℝ) (tMax : WithTop ℝ)
    (scene : Scene) (res : SceneObject → Option (List ℝ))
    (H : ∀ obj ∈ scene.objects, obj.intersect O D = .ok (res obj))
    (H2 : ∀ obj ∈ scene.objects, ∀ ts, res obj = some ts →
      ∀ t ∈ ts, ¬(tMin ≤ t ∧ (t : WithTop ℝ) ≤ tMax)) :
    trace_ray O D tMin tMax scene 0 = .ok (255, 255, 255) := by
  have hv : ∀ obj ∈ scene.objects, validTs tMin tMax (res obj) = [] := by
    intro obj ho
    cases hres : res obj with
    | none => simp [validTs]
    | some ts =>
      simp only [validTs, Option.getD_some]
      rw [List.filter_eq_nil_iff]
      intro t ht
      simp only [Bool.and_eq_true, decide_eq_true_eq, not_and]
      intro hmin hmax
      exact H2 obj ho ts hres t ht ⟨hmin, hmax⟩
  have hfold : scene.objects.foldl (fun acc o =>
      ((validTs tMin tMax (res o)).map (fun t => (t, o))).foldl hitStep acc) none = none := by
    revert hv
    generalize scene.objects = objs
    intro hv
    induction objs with
    | nil => rfl
    | cons o os ih =>
      rw [List.foldl_cons, hv o (List.mem_cons_self o os), List.map_nil, List.foldl_nil]
      exact ih (fun o' ho' => hv o' (List.mem_cons_of_mem o ho'))
  have hclosest : closestHit scene.objects O D tMin tMax = .ok none := by
    rw [closestHit_eq_foldl scene.objects O D tMin tMax res H, hfold]
  rw [trace_ray]
  rw [if_neg (by norm_num [MAX_DEPTH]), hclosest]

/-- C6 witness: tracing the empty scene returns white. -/
theorem trace_ray_miss_white_witness :
    trace_ray ⟨0, 0, 0⟩ ⟨0, 0, 1⟩ 1 ⊤ emptyScene 0 = .ok (255, 255, 255) :=
  trace_ray_miss_white ⟨0, 0, 0⟩ ⟨0, 0, 1⟩ 1 ⊤ emptyScene (fun _ => none)
    (by intro obj h; simp [emptyScene] at h)
    (by intro obj h; simp [emptyScene] at h)

theorem mixColors_one (l c : Color) : mixColors l c 1 = c := by
  have key : ∀ (a b : ℤ), pyInt ((a : ℝ) * (1 - 1) + (b : ℝ) * 1) = b := by
    intro a b
    norm_num [pyInt_intCast]
  unfold mixColors
  rw [key, key, key]

/-- C7: for a hit found at depth at most `MAX_DEPTH`, an object with
`reflective = 0` is shaded exactly by the local colour (`scale_rgb` of the
object colour by `ComputeLighting`), with no reflected contribution; an
object with `reflective = 1` yields exactly the colour of the recursively
traced reflected ray, with no local contribution. -/
theorem trace_ray_reflective_blend (O D : Vec3) (tMin : ℝ) (tMax : WithTop ℝ)
    (scene : Scene) (depth : ℕ) (t : ℝ) (obj : SceneObject)
    (hd : depth ≤ MAX_DEPTH)
    (hc : closestHit scene.objects O D tMin tMax = .ok (some (t, obj))) :
    (obj.reflective = 0 → trace_ray O D tMin tMax scene depth =
      .ok (scale_rgb obj.color
        (ComputeLighting (O + t • D) (obj.normal_at (O + t • D)) scene (-D) obj.specular))) ∧
    (obj.reflective = 1 → ∀ c₀,
      trace_ray ((O + t • D) + (1e-4 : ℝ) • (reflect D (obj.normal_at (O + t • D))).normalize)
        ((reflect D (obj.normal_at (O + t • D))).normalize) tMin tMax scene (depth + 1)
        = .ok c₀ →
      trace_ray O D tMin tMax scene depth = .ok c₀) := by
  constructor
  · intro hrefl
    rw [trace_ray]
    rw [if_neg (not_lt.mpr hd), hc]
    simp only [hrefl, lt_self_iff_false, if_false]
  · intro hrefl c₀ hrec
    rw [trace_ray]
    rw [if_neg (not_lt.mpr hd), hc]
    simp only [hrefl, zero_lt_one, if_true]
    rw [hrec]
    show Except.ok (mixColors _ c₀ 1) = Except.ok c₀
    rw [mixColors_one]

/-- C7 witness: the non-reflective test sphere at depth `0` is shaded with
exactly the local colour. -/
theorem trace_ray_reflective_blend_witness :
    trace_ray ⟨0, 0, 0⟩ ⟨0, 0, 1⟩ 1 ⊤ testSphereScene 0 =
      .ok (scale_rgb testSphere.obj.color
        (ComputeLighting (⟨0, 0, 0⟩ + (2 : ℝ) • ⟨0, 0, 1⟩)
          (testSphere.obj.normal_at (⟨0, 0, 0⟩ + (2 : ℝ) • ⟨0, 0, 1⟩)) testSphereScene
          (-⟨0, 0, 1⟩) testSphere.obj.specular)) :=
  (trace_ray_reflective_blend ⟨0, 0, 0⟩ ⟨0, 0, 1⟩ 1 ⊤ testSphereScene 0 2 testSphere.obj
    (by norm_num [MAX_DEPTH]) testSphere_closestHit).1
    (by norm_num [testSphere, mkSphere, Sphere.obj])

/-- C2 helper: the unit vector `(0, 0, 1)` normalizes to itself. -/
theorem axis001_normalize : Vec3.normalize ⟨0, 0, 1⟩ = ⟨0, 0, 1⟩ := by
  unfold Vec3.normalize Vec3.length Vec3.dot
  norm_num [Real.sqrt_one]

theorem zCylinder_intersect_error :
    zCylinder.obj.intersect ⟨0, 0, 0⟩ ⟨0, 0, 1⟩ = .error () := by
  show Cylinder.intersect zCylinder ⟨0, 0, 0⟩ ⟨0, 0, 1⟩ = .error ()
  unfold zCylinder mkCylinder
  rw [axis001_normalize]
  norm_num [Cylinder.intersect, Vec3.dot]

/-- C2: the tracing core can raise for a geometrically valid scene — a ray
parallel to a cylinder's axis (here the centre-pixel camera ray `D = (0,0,1)`
against a cylinder with axis `(0,0,1)`) makes the lateral quadratic
degenerate (`a = 0` with discriminant `0 ≥ 0`), and the Python division
`(-b - sqrt_disc) / (2 * a)` raises `ZeroDivisionError` instead of yielding
"no intersection". -/
theorem trace_ray_cylinder_axis_ray_raises :
    trace_ray ⟨0, 0, 0⟩ ⟨0, 0, 1⟩ 1 ⊤ zCylinderScene 0 = .error () := by
  have hch : closestHit zCylinderScene.objects ⟨0, 0, 0⟩ ⟨0, 0, 1⟩ 1 ⊤ = .error () := by
    show closestHit [zCylinder.obj] ⟨0, 0, 0⟩ ⟨0, 0, 1⟩ 1 ⊤ = .error ()
    unfold closestHit
    rw [List.foldlM_cons, zCylinder_intersect_error]
    rfl
  rw [trace_ray]
  rw [if_neg (by norm_num [MAX_DEPTH]), hch]

theorem exceptMapM_ok {α β : Type} (F : α → Except Unit β) (G : α → β) :
    ∀ l : List α, (∀ a ∈ l, F a = .ok (G a)) → l.mapM F = .ok (l.map G) := by
  intro l
  induction l with
  | nil => intro _; rfl
  | cons a as ih =>
    intro h
    rw [List.mapM_cons, h a (List.mem_cons_self a as),
      ih (fun b hb => h b (List.mem_cons_of_mem a hb))]
    rfl

theorem exceptMapM_error {α β : Type} (F : α → Except Unit β) :
    ∀ l : List α, (∃ a ∈ l, F a = .error ()) → l.mapM F = .error () := by
  intro l
  induction l with
  | nil =>
    rintro ⟨a, ha, _⟩
    exact absurd ha (List.not_mem_nil a)
  | cons a as ih =>
    rintro ⟨b, hb, hberr⟩
    rw [List.mapM_cons]
    rcases List.mem_cons.mp hb with heq | hb'
    · subst heq
      rw [hberr]
      rfl
    · cases hFa : F a with
      | error e => cases e; rfl
      | ok v =>
        rw [ih ⟨b, hb', hberr⟩]
        rfl

theorem exceptZipMapM {α β γ : Type} (F : α → Except Unit β) (G : α → β → γ) :
    ∀ l : List α,
    l.mapM (fun a => (F a).map (G a)) =
      (l.mapM F).map (fun vs => List.zipWith G l vs) := by
  intro l
  induction l with
  | nil => rfl
  | cons a as ih =>
    rw [List.mapM_cons, List.mapM_cons]
    cases hFa : F a with
    | error e => rfl
    | ok v =>
      rw [ih]
      cases hrest : as.mapM F with
      | error e => rfl
      | ok vs => rfl

theorem exceptFoldlM_error {α β σ : Type} (F : α → Except Unit β) (U : σ → α → β → σ) :
    ∀ (l : List α) (init : σ), (∃ a ∈ l, F a = .error ()) →
    l.foldlM (fun s a => (F a).map (U s a)) init = .error () := by
  intro l
  induction l with
  | nil =>
    rintro init ⟨a, ha, _⟩
    exact absurd ha (List.not_mem_nil a)
  | cons a as ih =>
    rintro init ⟨b, hb, hberr⟩
    rw [List.foldlM_cons]
    rcases List.mem_cons.mp hb with heq | hb'
    · subst heq
      rw [hberr]
      rfl
    · cases hFa : F a with
      | error e => cases e; rfl
      | ok v => exact ih (U init a v) ⟨b, hb', hberr⟩

theorem exceptMapM_ok_length {α β : Type} (F : α → Except Unit β) :
    ∀ (l : List α) (vs : List β), l.mapM F = .ok vs → vs.length = l.length := by
  intro l
  induction l with
  | nil =>
    intro vs h
    rw [List.mapM_nil] at h
    cases Except.ok.inj h
    rfl
  | cons a as ih =>
    intro vs h
    rw [List.mapM_cons] at h
    cases hFa : F a with
    | error e =>
      rw [hFa] at h
      exact Except.noConfusion (show (Except.error e : Except Unit (List β)) = .ok vs from h)
    | ok v =>
      rw [hFa] at h
      cases hrest : as.mapM F with
      | error e =>
        rw [hrest] at h
        exact Except.noConfusion (show (Except.error e : Except Unit (List β)) = .ok vs from h)
      | ok bs =>
        rw [hrest] at h
        cases Except.ok.inj (show (Except.ok (v :: bs) : Except Unit (List β)) = .ok vs from h)
        rw [List.length_cons, ih bs hrest, List.length_cons]

theorem foldl_set_length {γ : Type} (W : ℕ → γ) :
    ∀ (order : List ℕ) (init : List γ),
    (order.foldl (fun buf y => buf.set y (W y)) init).length = init.length := by
  intro order
  induction order with
  | nil => intro init; rfl
  | cons y ys ih =>
    intro init
    rw [List.foldl_cons, ih (init.set y (W y)), List.length_set]

theorem foldl_set_get {γ : Type} (W : ℕ → γ) :
    ∀ (order : List ℕ) (init : List γ) (k : ℕ),
    (order.foldl (fun buf y => buf.set y (W y)) init)[k]? =
      if k ∈ order ∧ k < init.length then some (W k) else init[k]? := by
  intro order
  induction order with
  | nil =>
    intro init k
    rw [List.foldl_nil, if_neg (fun h => absurd h.1 (List.not_mem_nil k))]
  | cons y ys ih =>
    intro init k
    rw [List.foldl_cons, ih (init.set y (W y)) k]
    simp only [List.length_set]
    by_cases h1 : k ∈ ys ∧ k < init.length
    · rw [if_pos h1, if_pos ⟨List.mem_cons_of_mem y h1.1, h1.2⟩]
    · rw [if_neg h1]
      by_cases h2 : k = y
      · subst h2
        by_cases h3 : k < init.length
        · rw [List.getElem?_set_self h3, if_pos ⟨List.mem_cons_self k ys, h3⟩]
        · rw [if_neg (fun hc => h3 hc.2)]
          rw [List.getElem?_eq_none (by rw [List.length_set]; exact le_of_not_lt h3),
            List.getElem?_eq_none (le_of_not_lt h3)]
      · rw [List.getElem?_set_ne (fun hyk => h2 hyk.symm)]
        rw [if_neg (fun hc => h1 ⟨(List.mem_cons.mp hc.1).resolve_left h2, hc.2⟩)]

theorem phase2_mapM_ok :
    ∀ (rows : List (List String)) (n : ℕ),
    ((rows.map some).enumFrom n).mapM phase2Step =
      .ok ((rows.enumFrom n).map
        (fun p => p.2.enum.map (fun (q : ℕ × String) => (q.1, p.1, q.2)))) := by
  intro rows
  induction rows with
  | nil => intro n; rfl
  | cons r rs ih =>
    intro n
    rw [show ((r :: rs).map some).enumFrom n
        = (n, some r) :: ((rs.map some).enumFrom (n + 1)) from rfl]
    rw [List.mapM_cons, ih (n + 1)]
    rfl

theorem phase2_ok (rows : List (List String)) :
    renderParallelPhase2 (rows.map some) =
      .ok (List.flatten (rows.enum.map
        (fun p => p.2.enum.map (fun (q : ℕ × String) => (q.1, p.1, q.2))))) := by
  unfold renderParallelPhase2
  rw [show (rows.map some).enum = (rows.map some).enumFrom 0 from rfl,
    phase2_mapM_ok rows 0]
  rfl

/-- C3: for every scene, image width and height, the row-parallel renderer
plots exactly the sequential renderer's plot sequence, for every completion
order of the row futures (any permutation of the row indices): the pre-sized,
index-addressed row buffer makes the output independent of scheduling, and a
raising row aborts both renders identically. -/
theorem render_parallel_eq_sequential (scene : Scene) (width height : ℕ)
    (order : List ℕ) (hperm : order.Perm (List.range height)) :
    render_parallel_rows scene width height order =
      render_sequential scene width height := by
  by_cases hall : ∀ y ∈ List.range height, ∃ r, render_row scene width height y = .ok r
  · have hrow : ∀ y ∈ List.range height,
        render_row scene width height y = .ok (rowValue scene width height y) := by
      intro y hy
      obtain ⟨r, hr⟩ := hall y hy
      rw [rowValue, hr]
      rfl
    have hlen : ∀ y ∈ List.range height,
        (rowValue scene width height y).length = width := by
      intro y hy
      have h1 : (List.range width).mapM (fun x => pixelHex scene width height x y)
          = .ok (rowValue scene width height y) := hrow y hy
      have h2 := exceptMapM_ok_length (fun x => pixelHex scene width height x y)
        (List.range width) (rowValue scene width height y) h1
      rw [List.length_range] at h2
      exact h2
    have hseqrow : ∀ y ∈ List.range height,
        (List.range width).mapM
          (fun x => (pixelHex scene width height x y).map (fun s => (x, y, s)))
          = .ok (List.zipWith (fun (x : ℕ) (s : String) => (x, y, s)) (List.range width)
              (rowValue scene width height y)) := by
      intro y hy
      have hz := exceptZipMapM (fun x => pixelHex scene width height x y)
        (fun (x : ℕ) (s : String) => (x, y, s)) (List.range width)
      have h1 : (List.range width).mapM (fun x => pixelHex scene width height x y)
          = .ok (rowValue scene width height y) := hrow y hy
      rw [h1] at hz
      exact hz
    have hmapseq := exceptMapM_ok
      (fun y => (List.range width).mapM
        (fun x => (pixelHex scene width height x y).map (fun s => (x, y, s))))
      (fun y => List.zipWith (fun (x : ℕ) (s : String) => (x, y, s)) (List.range width)
        (rowValue scene width height y))
      (List.range height) hseqrow
    have hseq : render_sequential scene width height
        = .ok (List.flatten ((List.range height).map
            (fun y => List.zipWith (fun (x : ℕ) (s : String) => (x, y, s))
              (List.range width) (rowValue scene width height y)))) := by
      unfold render_sequential
      rw [hmapseq]
      rfl
    have hordrow : ∀ y ∈ order,
        render_row scene width height y = .ok (rowValue scene width height y) :=
      fun y hy => hrow y (hperm.mem_iff.mp hy)
    have hphase1 : renderParallelPhase1 scene width height order
        = .ok (order.foldl (fun buf y => buf.set y (some (rowValue scene width height y)))
            (List.replicate height none)) :=
      foldlM_map_ok (fun y => render_row scene width height y)
        (fun y => rowValue scene width height y)
        (fun (buf : List (Option (List String))) (y : ℕ) (row : List String) =>
          buf.set y (some row)) order (List.replicate height none) hordrow
    have hbuf : order.foldl (fun buf y => buf.set y (some (rowValue scene width height y)))
        (List.replicate height none)
        = (List.range height).map (fun y => some (rowValue scene width height y)) := by
      apply List.ext_getElem?
      intro k
      rw [foldl_set_get (fun y => some (rowValue scene width height y)) order
        (List.replicate height none) k]
      rw [List.length_replicate]
      by_cases hk : k < height
      · rw [if_pos ⟨hperm.mem_iff.mpr (List.mem_range.mpr hk), hk⟩]
        rw [List.getElem?_map, List.getElem?_range hk]
        rfl
      · rw [if_neg (fun hc => hk hc.2)]
        rw [List.getElem?_replicate, if_neg hk]
        rw [List.getElem?_map,
          List.getElem?_eq_none (by rw [List.length_range]; exact le_of_not_lt hk)]
        rfl
    have hmapmap : (List.range height).map (fun y => some (rowValue scene width height y))
        = ((List.range height).map (fun y => rowValue scene width height y)).map some := by
      rw [List.map_map]
      rfl
    have hpar2 : render_parallel_rows scene width height order
        = .ok (List.flatten
            ((((List.range height).map (fun y => rowValue scene width height y)).enum).map
              (fun p => p.2.enum.map (fun (q : ℕ × String) => (q.1, p.1, q.2))))) := by
      unfold render_parallel_rows
      rw [hphase1, hbuf, hmapmap]
      rw [show (Except.ok (((List.range height).map
            (fun y => rowValue scene width height y)).map some) :
          Except Unit (List (Option (List String)))).bind renderParallelPhase2
          = renderParallelPhase2 (((List.range height).map
            (fun y => rowValue scene width height y)).map some) from rfl]
      rw [phase2_ok]
    have henum : ((List.range height).map (fun y => rowValue scene width height y)).enum
        = (List.range height).map (fun y => (y, rowValue scene width height y)) := by
      rw [List.enum_eq_zip_range]
      rw [List.length_map, List.length_range]
      rw [List.zip_map_right]
      rw [List.zip_eq_zipWith, List.zipWith_same]
      rw [List.map_map]
      rfl
    rw [hpar2, hseq]
    refine congrArg (fun l => Except.ok (List.flatten l)) ?_
    rw [henum, List.map_map]
    apply List.map_congr_left
    intro y hy
    show (rowValue scene width height y).enum.map
        (fun (q : ℕ × String) => (q.1, y, q.2)) = _
    rw [List.enum_eq_zip_range, hlen y hy]
    exact List.map_uncurry_zip_eq_zipWith (fun (x : ℕ) (s : String) => (x, y, s))
      (List.range width) (rowValue scene width height y)
  · push_neg at hall
    obtain ⟨y, hy, hne⟩ := hall
    have herr : render_row scene width height y = .error () := by
      cases h' : render_row scene width height y with
      | error e => cases e; rfl
      | ok r => exact absurd h' (hne r)
    have hseqrow : (List.range width).mapM
        (fun x => (pixelHex scene width height x y).map (fun s => (x, y, s)))
        = .error () := by
      have hz := exceptZipMapM (fun x => pixelHex scene width height x y)
        (fun (x : ℕ) (s : String) => (x, y, s)) (List.range width)
      have h1 : (List.range width).mapM (fun x => pixelHex scene width height x y)
          = .error () := herr
      rw [h1] at hz
      exact hz
    have hm := exceptMapM_error
      (fun y => (List.range width).mapM
        (fun x => (pixelHex scene width height x y).map (fun s => (x, y, s))))
      (List.range height) ⟨y, hy, hseqrow⟩
    have hseq : render_sequential scene width height = .error () := by
      unfold render_sequential
      rw [hm]
      rfl
    have hp1 : renderParallelPhase1 scene width height order = .error () :=
      exceptFoldlM_error (fun y => render_row scene width height y)
        (fun (buf : List (Option (List String))) (y : ℕ) (row : List String) =>
          buf.set y (some row)) order (List.replicate height none)
        ⟨y, hperm.mem_iff.mpr hy, herr⟩
    have hpar : render_parallel_rows scene width height order = .error () := by
      unfold render_parallel_rows
      rw [hp1]
      rfl
    rw [hpar, hseq]

/-- C3 witness: a `1×2` render of the empty scene with the rows completing in
reversed order matches the sequential render. -/
theorem render_parallel_eq_sequential_witness :
    render_parallel_rows emptyScene 1 2 [1, 0] = render_sequential emptyScene 1 2 :=
  render_parallel_eq_sequential emptyScene 1 2 [1, 0] (by decide)

end
